import Mathlib

/-!
Verification of the foxtive-ntex multipart pipeline.

Shallow embedding conventions:
* Rust `String`/`str` values are modelled as `List Char` (`Str`); byte buffers
  (`ntex::util::Bytes`) are also modelled as `List Char`, a chunk's byte length
  becoming its list length, and the lossy UTF-8 decoding used for plain data
  fields becoming plain concatenation.  No claim below inspects an individual
  byte, so this identification is harmless.
* Rust `char::is_whitespace` is modelled by `Char.isWhitespace` (ASCII
  whitespace); `char::to_lowercase` by `Char.toLower`.  All claims and all of
  the repository's own tests stay within ASCII.
* `HashMap<String, String>` is modelled as an association list with
  replace-on-insert semantics (`mapInsert`); the claims only ever observe the
  map through lookups and key-presence tests, for which this is faithful.
* Fallible Rust code returns `Except`/`Option`; a reachable `unwrap` on a
  value that can be `None`/`Err` is modelled as an explicit panic outcome.
-/

abbrev Str := List Char

def strL (s : String) : Str := s.toList

/-- Rust `str::trim_start` (whitespace). -/
def trimLeft (s : Str) : Str := s.dropWhile Char.isWhitespace

/-- Rust `str::trim_end` (whitespace). -/
def trimRight (s : Str) : Str := (s.reverse.dropWhile Char.isWhitespace).reverse

/-- Rust `str::trim` (whitespace). -/
def trimStr (s : Str) : Str := trimRight (trimLeft s)

/-- Rust `str::trim_matches('"')`: repeatedly removes leading and trailing
double-quote characters (also unbalanced ones). -/
def trimMatchesQuote (s : Str) : Str :=
  ((s.dropWhile (fun c => c = '"')).reverse.dropWhile (fun c => c = '"')).reverse

/-- Rust `str::split(';')`: the empty string yields one empty piece. -/
def splitSemi : Str → List Str
  | [] => [[]]
  | c :: rest =>
    if c = ';' then [] :: splitSemi rest
    else
      match splitSemi rest with
      | [] => [[c]]
      | s :: ss => (c :: s) :: ss

/-- Rust `str::split_once('=')`: split at the first `=`, `none` if absent. -/
def splitOnceEq : Str → Option (Str × Str)
  | [] => none
  | c :: rest =>
    if c = '=' then some ([], rest)
    else (splitOnceEq rest).map (fun kv => (c :: kv.1, kv.2))

/-- `HashMap<String, String>`, modelled as an association list.  `mapInsert`
replaces any existing binding of the key, like `HashMap::insert`. -/
abbrev VarMap := List (Str × Str)

def mapInsert (m : VarMap) (k v : Str) : VarMap :=
  m.filter (fun p => decide (p.1 ≠ k)) ++ [(k, v)]

def mapLookup (m : VarMap) (k : Str) : Option Str :=
  (m.find? (fun p => decide (p.1 = k))).map Prod.snd

def mapContains (m : VarMap) (k : Str) : Bool :=
  (m.find? (fun p => decide (p.1 = k))).isSome

def nameKey : Str := strL "name"

def filenameKey : Str := strL "filename"

/-- `ContentDispositionParseResult` (content_disposition.rs). -/
structure ContentDispositionParseResult where
  vars : VarMap
  is_file_field : Bool
  has_name_field : Bool
deriving DecidableEq

/-- `ContentDisposition` (content_disposition.rs); `Default` gives an empty
map and false flags. -/
structure ContentDisposition where
  vars : VarMap := []
  is_file_field : Bool := false
  has_name_field : Bool := false
deriving DecidableEq

/-- The loop body of `ContentDisposition::parse`: trim the segment, split it
at the first `=`, and on success insert the trimmed key and the trimmed,
quote-stripped value. -/
def parseFoldStep (m : VarMap) (part : Str) : VarMap :=
  let part := trimStr part
  match splitOnceEq part with
  | some kv => mapInsert m (trimStr kv.1) (trimMatchesQuote (trimStr kv.2))
  | none => m

/-- `ContentDisposition::parse` (content_disposition.rs lines 57-75). -/
def ContentDisposition.parse (content_disposition : Str) : ContentDispositionParseResult :=
  let vars := (splitSemi content_disposition).foldl parseFoldStep []
  { is_file_field := mapContains vars filenameKey
    has_name_field := mapContains vars nameKey
    vars := vars }

/-- `ContentDisposition::create`. -/
def ContentDisposition.create (content_disposition : Str) : ContentDisposition :=
  let result := ContentDisposition.parse content_disposition
  { vars := result.vars
    is_file_field := result.is_file_field
    has_name_field := result.has_name_field }

/-- `ContentDisposition::get_variable`. -/
def ContentDisposition.get_variable (cd : ContentDisposition) (key : Str) : Option Str :=
  mapLookup cd.vars key

/-- Specification-side reading of claim C1, per segment: split the (trimmed)
segment at the first `=` only; a segment without `=` contributes nothing;
trim the key and the value; strip the value's surrounding double quotes. -/
def specSegKV (seg : Str) : Option (Str × Str) :=
  (splitOnceEq (trimStr seg)).map (fun kv => (trimStr kv.1, trimMatchesQuote (trimStr kv.2)))

def buildVarMap (l : List (Str × Str)) : VarMap :=
  l.foldl (fun m kv => mapInsert m kv.1 kv.2) []

/-- Specification-side reading of claim C1 for the whole header: split the
input on `;` and build the map from the per-segment key/value pairs. -/
def specVariables (cd : Str) : VarMap :=
  buildVarMap ((splitSemi cd).filterMap specSegKV)

/-- Claim C1 taken literally: strip exactly one layer of surrounding double
quotes from the value (only when such a layer exists on both sides). -/
def stripOneQuoteLayer (s : Str) : Str :=
  match s with
  | [] => []
  | c :: rest => if c = '"' ∧ rest.getLast? = some '"' then rest.dropLast else c :: rest

def claimSegKV (seg : Str) : Option (Str × Str) :=
  (splitOnceEq (trimStr seg)).map (fun kv => (trimStr kv.1, stripOneQuoteLayer (trimStr kv.2)))

def claimVariables (cd : Str) : VarMap :=
  buildVarMap ((splitSemi cd).filterMap claimSegKV)

theorem parseFoldStep_eq_specSegKV (m : VarMap) (part : Str) :
    parseFoldStep m part =
      match specSegKV part with
      | some kv => mapInsert m kv.1 kv.2
      | none => m := by
  unfold parseFoldStep specSegKV
  cases h : splitOnceEq (trimStr part) <;> simp [h]

theorem foldl_parseFoldStep_eq (l : List Str) :
    ∀ m : VarMap,
      l.foldl parseFoldStep m =
        (l.filterMap specSegKV).foldl (fun m kv => mapInsert m kv.1 kv.2) m := by
  induction l with
  | nil => intro m; rfl
  | cons seg rest ih =>
    intro m
    rw [List.foldl_cons, parseFoldStep_eq_specSegKV]
    cases h : specSegKV seg <;> simp [List.filterMap_cons, h, ih]

/-- Claim C1 (amended): `ContentDisposition::parse` splits the input on `;`,
splits each (trimmed) segment on the first `=` only — a segment without `=`
contributes nothing to the map — trims whitespace around key and value, and
strips ALL surrounding double-quote characters from the value (repeatedly,
also unbalanced ones), not exactly one layer; the empty input yields an empty
map, and `is_file_field` / `has_name_field` equal the presence of the
`filename` / `name` keys in the resulting map. -/
theorem c1_parse_spec (cd : Str) :
    (ContentDisposition.parse cd).vars = specVariables cd ∧
    (ContentDisposition.parse (strL "")).vars = [] ∧
    (ContentDisposition.parse cd).is_file_field = mapContains (specVariables cd) filenameKey ∧
    (ContentDisposition.parse cd).has_name_field = mapContains (specVariables cd) nameKey := by
  refine ⟨?_, by decide, ?_, ?_⟩ <;>
    simp [ContentDisposition.parse, specVariables, buildVarMap, foldl_parseFoldStep_eq]

/-- Claim C1, as stated, is false: on `a=""v""` the code strips both quote
layers (`trim_matches` removes them repeatedly), yielding `v`, while
stripping exactly one layer would yield `"v"`. -/
theorem c1_parse_one_quote_layer_cex :
    mapLookup (ContentDisposition.parse (strL "a=\"\"v\"\"")).vars (strL "a") =
      some (strL "v") ∧
    mapLookup (claimVariables (strL "a=\"\"v\"\"")) (strL "a") = some (strL "\"v\"") ∧
    some (strL "v") ≠ some (strL "\"v\"") := by
  decide

/-- The underlying stream's `ntex_multipart::MultipartError`, opaque. -/
structure NtexErr where
  code : Nat
deriving DecidableEq

/-- `ErrorMessage` (file_validator.rs lines 12-21). -/
inductive ErrorMessage where
  | NoFiles
  | FileTooSmall (n : Nat)
  | FileTooLarge (n : Nat)
  | TooFewFiles (n : Nat)
  | TooManyFiles (n : Nat)
  | InvalidFileExtension (ext : Option Str)
  | InvalidContentType (msg : Str)
  | MissingFileExtension (file : Str)
deriving DecidableEq

/-- `InputError` (file_validator.rs lines 6-9). -/
structure InputError where
  name : Str
  error : ErrorMessage
deriving DecidableEq

/-- `MultipartError` (result.rs lines 10-19); the `IoError` payload is opaque. -/
inductive MultipartError where
  | NoFile
  | IoError (code : Nat)
  | NoContentType (msg : Str)
  | ParseError (msg : Str)
  | MissingDataField (field : Str)
  | InvalidContentDisposition (msg : Str)
  | NtexError (e : NtexErr)
  | ValidationError (e : InputError)
deriving DecidableEq

/-- `DataInput` (data_input.rs). -/
structure DataInput where
  name : Str
  value : Str
deriving DecidableEq

/-- `FileInput` (file_input.rs lines 11-20); chunks of `bytes` are modelled
as `Str`.  `Default` gives empty strings, size 0, no chunks, no extension. -/
structure FileInput where
  file_name : Str := []
  field_name : Str := []
  size : Nat := 0
  content_type : Str := []
  bytes : List Str := []
  extension : Option Str := none
  content_disposition : ContentDisposition := {}
deriving DecidableEq

/-- `FileInput::calculate_size` (file_input.rs lines 59-61). -/
def FileInput.calculate_size (f : FileInput) : Nat :=
  (f.bytes.map List.length).sum

/-- Spec-side phrase of claim C6: the sum of the lengths of the byte
segments, 0 for the empty sequence. -/
def sumOfLengths : List Str → Nat
  | [] => 0
  | b :: bs => b.length + sumOfLengths bs

/-- Modelled from the spec: `FileExtHelper::get_extension` lives in the
external foxtive crate (not under src/); spec §3 says the extension is
derived from the file name by splitting on the last `.`. -/
def getExtension (name : Str) : Option Str :=
  if '.' ∈ name then some ((name.reverse.takeWhile (fun c => c ≠ '.')).reverse) else none

deriving instance DecidableEq for Except

/-- One part of the multipart stream: its two relevant headers and its body
chunks.  For a header, `none` means the header is absent and `some none`
that its value is not a UTF-8 string (`to_str` fails); each body chunk
either arrives or is a chunk-level stream error. -/
structure MpPart where
  cdHeader : Option (Option Str) := none
  ctHeader : Option (Option Str) := none
  chunks : List (Except NtexErr Str) := []
deriving DecidableEq

/-- `FileInput::get_content_type` (file_input.rs lines 70-80). -/
def FileInput.get_content_type (headers : Option (Option Str)) : Except MultipartError Str :=
  match headers with
  | none => .error (.NoContentType (strL "Empty content type"))
  | some none => .error (.NoContentType (strL "invalid header value"))
  | some (some v) => .ok v

/-- `FileInput::create` (file_input.rs lines 24-42).  The two `unwrap`s on
the `name`/`filename` entries of the disposition map are modelled by the
outer `Option`: `none` is the panic. -/
def FileInput.create (headers : Option (Option Str)) (cd : ContentDisposition) :
    Option (Except MultipartError FileInput) :=
  match FileInput.get_content_type headers with
  | .error e => some (.error e)
  | .ok content_type =>
    match mapLookup cd.vars nameKey, mapLookup cd.vars filenameKey with
    | some field, some name =>
      some (.ok { extension := getExtension name
                  content_type := content_type
                  size := 0
                  bytes := []
                  file_name := name
                  field_name := field
                  content_disposition := cd })
    | _, _ => none

/-- `HashMap<String, Vec<_>>` bucket update
`map.entry(k).or_default().push(v)` used by `Multipart::process`. -/
def pushAt (m : List (Str × List α)) (k : Str) (v : α) : List (Str × List α) :=
  if m.any (fun p => decide (p.1 = k)) then
    m.map (fun p => if p.1 = k then (p.1, p.2 ++ [v]) else p)
  else m ++ [(k, [v])]

def bucketGet (m : List (Str × List α)) (k : Str) : Option (List α) :=
  (m.find? (fun p => decide (p.1 = k))).map Prod.snd

/-- The aggregator's two maps (multipart.rs `Multipart`, lines 18-22);
a fresh `Multipart` has both empty. -/
structure MpState where
  file_inputs : List (Str × List FileInput) := []
  data_inputs : List (Str × List DataInput) := []
deriving DecidableEq

/-- `Multipart::collect_data_field_value` (multipart.rs lines 103-112):
chunk errors are skipped, ok chunks are concatenated. -/
def collect_data_field_value (chunks : List (Except NtexErr Str)) : Str :=
  chunks.foldl (fun acc c => match c with | .ok d => acc ++ d | .error _ => acc) []

/-- The file-branch chunk loop of `Multipart::process` (lines 82-86): every
chunk goes through `chunk.unwrap()`, so a chunk error panics (`none`);
otherwise the running total size and the ordered chunk list result. -/
def collectFileChunks : List (Except NtexErr Str) → Option (Nat × List Str)
  | [] => some (0, [])
  | .ok d :: rest => (collectFileChunks rest).map (fun tb => (d.length + tb.1, d :: tb.2))
  | .error _ :: _ => none

/-- Which `unwrap` a modelled panic came from. -/
inductive PanicKind where
  | createUnwrap
  | chunkUnwrap
deriving DecidableEq

/-- Outcome of handling one ok part in `Multipart::process`. -/
inductive StepOut where
  | ok (st : MpState)
  | err (e : MultipartError)
  | panicked (r : PanicKind)
deriving DecidableEq

/-- The body of `Multipart::process`'s loop for one ok part
(multipart.rs lines 49-97). -/
def stepPart (st : MpState) (p : MpPart) : StepOut :=
  match p.cdHeader with
  | none => .ok st
  | some none => .ok st
  | some (some cdStr) =>
    let cd := ContentDisposition.create cdStr
    if cd.has_name_field = false then .ok st
    else if cd.is_file_field = false then
      let value := collect_data_field_value p.chunks
      let field_name := (cd.get_variable nameKey).getD []
      .ok { st with data_inputs := pushAt st.data_inputs field_name
                      { value := value, name := field_name } }
    else
      match FileInput.create p.ctHeader cd with
      | none => .panicked .createUnwrap
      | some (.error e) => .err e
      | some (.ok info) =>
        match collectFileChunks p.chunks with
        | none => .panicked .chunkUnwrap
        | some tb =>
          .ok { st with file_inputs := pushAt st.file_inputs info.field_name
                          { info with size := tb.1, bytes := tb.2 } }

/-- Outcome of `Multipart::process`: on an item-level stream error the maps
accumulated so far are kept (the error return leaves `self` intact). -/
inductive ProcOut where
  | ok (st : MpState)
  | err (e : MultipartError) (st : MpState)
  | panicked (r : PanicKind)
deriving DecidableEq

/-- `Multipart::process` (multipart.rs lines 45-101) over the stream's items. -/
def Multipart.process (st : MpState) : List (Except NtexErr MpPart) → ProcOut
  | [] => .ok st
  | .error e :: _ => .err (.NtexError e) st
  | .ok p :: rest =>
    match stepPart st p with
    | .ok st' => Multipart.process st' rest
    | .err e => .err e st
    | .panicked r => .panicked r

/-- `Multipart::first_data` (multipart.rs lines 165-169). -/
def Multipart.first_data (st : MpState) (field : Str) : Option DataInput :=
  (bucketGet st.data_inputs field).bind List.head?

/-- `Multipart::first_data_required` (multipart.rs lines 173-178). -/
def Multipart.first_data_required (st : MpState) (field : Str) :
    Except MultipartError DataInput :=
  match Multipart.first_data st field with
  | some d => .ok d
  | none => .error (.MissingDataField field)

theorem mapContains_eq_isSome (m : VarMap) (k : Str) :
    mapContains m k = (mapLookup m k).isSome := by
  unfold mapContains mapLookup
  cases h : m.find? (fun p => decide (p.1 = k)) <;> simp [h]

theorem lookup_of_contains (m : VarMap) (k : Str) (h : mapContains m k = true) :
    ∃ v, mapLookup m k = some v := by
  rw [mapContains_eq_isSome] at h
  exact Option.isSome_iff_exists.mp h

theorem create_has_name_eq (s : Str) :
    (ContentDisposition.create s).has_name_field =
      mapContains (ContentDisposition.create s).vars nameKey := rfl

theorem create_is_file_eq (s : Str) :
    (ContentDisposition.create s).is_file_field =
      mapContains (ContentDisposition.create s).vars filenameKey := rfl

theorem fileInputCreate_isSome (hd : Option (Option Str)) (cd : ContentDisposition)
    (hn : ∃ v, mapLookup cd.vars nameKey = some v)
    (hf : ∃ v, mapLookup cd.vars filenameKey = some v) :
    (FileInput.create hd cd).isSome = true := by
  obtain ⟨a, ha⟩ := hn
  obtain ⟨b, hb⟩ := hf
  unfold FileInput.create
  cases FileInput.get_content_type hd with
  | error e => rfl
  | ok ct => simp [ha, hb]

def StepOut.isCreatePanic : StepOut → Bool
  | .panicked .createUnwrap => true
  | _ => false

def ProcOut.isCreatePanic : ProcOut → Bool
  | .panicked .createUnwrap => true
  | _ => false

theorem stepPart_not_createPanic (st : MpState) (p : MpPart) :
    (stepPart st p).isCreatePanic = false := by
  cases hcd : p.cdHeader with
  | none => simp [stepPart, hcd, StepOut.isCreatePanic]
  | some o =>
    cases o with
    | none => simp [stepPart, hcd, StepOut.isCreatePanic]
    | some s =>
      by_cases h1 : (ContentDisposition.create s).has_name_field = false
      · simp [stepPart, hcd, h1, StepOut.isCreatePanic]
      · by_cases h2 : (ContentDisposition.create s).is_file_field = false
        · simp [stepPart, hcd, h1, h2, StepOut.isCreatePanic]
        · have h1t : (ContentDisposition.create s).has_name_field = true := by
            revert h1; cases (ContentDisposition.create s).has_name_field <;> simp
          have h2t : (ContentDisposition.create s).is_file_field = true := by
            revert h2; cases (ContentDisposition.create s).is_file_field <;> simp
          have hn := lookup_of_contains _ _ ((create_has_name_eq s) ▸ h1t)
          have hf := lookup_of_contains _ _ ((create_is_file_eq s) ▸ h2t)
          have hsome := fileInputCreate_isSome p.ctHeader _ hn hf
          cases hc : FileInput.create p.ctHeader (ContentDisposition.create s) with
          | none => rw [hc] at hsome; simp at hsome
          | some r =>
            cases r with
            | error e => simp [stepPart, hcd, h1, h2, hc, StepOut.isCreatePanic]
            | ok info =>
              cases hb : collectFileChunks p.chunks <;>
                simp [stepPart, hcd, h1, h2, hc, hb, StepOut.isCreatePanic]

/-- Claim C10: every invocation of `FileInput::create` reached through
`Multipart::process` happens under the guards `has_name_field` and
`is_file_field`, whose truth means the `name` and `filename` keys are in the
parsed disposition map, so the two `unwrap`s inside `create` never panic
through `process` — for any stream and any starting state. -/
theorem c10_create_unwrap_safe (st : MpState) (items : List (Except NtexErr MpPart)) :
    (Multipart.process st items).isCreatePanic = false := by
  induction items generalizing st with
  | nil => rfl
  | cons it rest ih =>
    cases it with
    | error e => rfl
    | ok p =>
      have hs := stepPart_not_createPanic st p
      simp only [Multipart.process]
      cases h : stepPart st p with
      | ok st' => exact ih st'
      | err e => rfl
      | panicked r =>
        cases r with
        | createUnwrap => rw [h] at hs; simp [StepOut.isCreatePanic] at hs
        | chunkUnwrap => rfl

theorem calculate_size_eq_sumOfLengths (f : FileInput) :
    f.calculate_size = sumOfLengths f.bytes := by
  unfold FileInput.calculate_size
  induction f.bytes with
  | nil => rfl
  | cons b bs ih => simp [sumOfLengths, ih]

theorem collectFileChunks_total (chunks : List (Except NtexErr Str)) :
    ∀ t bs, collectFileChunks chunks = some (t, bs) → t = sumOfLengths bs := by
  induction chunks with
  | nil =>
    intro t bs h
    rw [show collectFileChunks [] = some (0, []) from rfl] at h
    injection h with h1
    injection h1 with h2 h3
    subst h2
    subst h3
    rfl
  | cons c rest ih =>
    intro t bs h
    cases c with
    | error e => simp [collectFileChunks] at h
    | ok d =>
      simp only [collectFileChunks] at h
      obtain ⟨⟨t', bs'⟩, hrest, heq⟩ := Option.map_eq_some'.mp h
      cases heq
      simp [sumOfLengths, ih t' bs' hrest]

/-- The size bookkeeping invariant of the aggregator's file map. -/
def sizeInv (st : MpState) : Prop :=
  ∀ kv ∈ st.file_inputs, ∀ f ∈ kv.2, f.size = sumOfLengths f.bytes

theorem pushAt_forall (P : α → Prop) (m : List (Str × List α)) (k : Str) (v : α)
    (hm : ∀ kv ∈ m, ∀ x ∈ kv.2, P x) (hv : P v) :
    ∀ kv ∈ pushAt m k v, ∀ x ∈ kv.2, P x := by
  unfold pushAt
  split
  · intro kv hkv x hx
    obtain ⟨p, hp, rfl⟩ := List.mem_map.mp hkv
    by_cases hk : p.1 = k
    · rw [if_pos hk] at hx
      rcases List.mem_append.mp hx with h | h
      · exact hm p hp x h
      · rw [List.mem_singleton] at h
        exact h ▸ hv
    · rw [if_neg hk] at hx
      exact hm p hp x hx
  · intro kv hkv x hx
    rcases List.mem_append.mp hkv with h | h
    · exact hm kv h x hx
    · rw [List.mem_singleton] at h
      subst h
      rw [List.mem_singleton] at hx
      exact hx ▸ hv

theorem stepPart_sizeInv (st st' : MpState) (p : MpPart)
    (hinv : sizeInv st) (h : stepPart st p = .ok st') : sizeInv st' := by
  cases hcd : p.cdHeader with
  | none => simp only [stepPart, hcd] at h; cases h; exact hinv
  | some o =>
    cases o with
    | none => simp only [stepPart, hcd] at h; cases h; exact hinv
    | some s =>
      simp only [stepPart, hcd] at h
      split at h
      · cases h; exact hinv
      · split at h
        · cases h
          exact hinv
        · split at h
          · cases h
          · cases h
          · rename_i info heq
            split at h
            · cases h
            · rename_i tb hcc
              cases h
              have hinv' : ∀ kv ∈ st.file_inputs, ∀ x ∈ kv.2,
                  x.size = sumOfLengths x.bytes := hinv
              intro kv hkv f hf
              refine pushAt_forall (fun g => g.size = sumOfLengths g.bytes)
                st.file_inputs info.field_name _ hinv' ?_ kv hkv f hf
              exact collectFileChunks_total p.chunks tb.1 tb.2 (by rw [hcc])

theorem process_sizeInv (items : List (Except NtexErr MpPart)) :
    ∀ st st', sizeInv st → Multipart.process st items = .ok st' → sizeInv st' := by
  induction items with
  | nil =>
    intro st st' hinv h
    cases h
    exact hinv
  | cons it rest ih =>
    intro st st' hinv h
    cases it with
    | error e => cases h
    | ok p =>
      simp only [Multipart.process] at h
      cases hs : stepPart st p with
      | ok st2 =>
        rw [hs] at h
        exact ih st2 st' (stepPart_sizeInv st st2 p hinv hs) h
      | err e => rw [hs] at h; cases h
      | panicked r => rw [hs] at h; cases h

/-- Claim C6: `FileInput::calculate_size` equals the sum of the lengths of
the byte segments (0 for the empty sequence); and whenever `process`
succeeds starting from a fresh aggregator, every `FileInput` stored in the
file map has its `size` field equal to that sum of its chunk lengths. -/
theorem c6_size_invariant (items : List (Except NtexErr MpPart)) (st' : MpState)
    (h : Multipart.process {} items = .ok st') :
    (∀ f : FileInput, f.calculate_size = sumOfLengths f.bytes) ∧
    ∀ name fs, bucketGet st'.file_inputs name = some fs →
      ∀ f ∈ fs, f.size = sumOfLengths f.bytes := by
  constructor
  · exact calculate_size_eq_sumOfLengths
  · have hinv : sizeInv st' := by
      refine process_sizeInv items {} st' ?_ h
      intro kv hkv
      cases hkv
    intro name fs hfs f hf
    unfold bucketGet at hfs
    obtain ⟨p, hp, hsnd⟩ := Option.map_eq_some'.mp hfs
    subst hsnd
    exact hinv p (List.mem_of_find?_eq_some hp) f hf

def c6WitnessPart : MpPart :=
  { cdHeader := some (some (strL "form-data; name=a; filename=b.txt"))
    ctHeader := some (some (strL "text/plain"))
    chunks := [Except.ok (strL "xy"), Except.ok (strL "z")] }

def c6WitnessFile : FileInput :=
  { file_name := strL "b.txt"
    field_name := strL "a"
    size := 3
    content_type := strL "text/plain"
    bytes := [strL "xy", strL "z"]
    extension := some (strL "txt")
    content_disposition := ContentDisposition.create (strL "form-data; name=a; filename=b.txt") }

/-- Witness for C6: a one-file-part stream for which `process` succeeds. -/
theorem c6_size_invariant_witness :
    (∀ f : FileInput, f.calculate_size = sumOfLengths f.bytes) ∧
    ∀ name fs,
      bucketGet (MpState.mk [(strL "a", [c6WitnessFile])] []).file_inputs name = some fs →
      ∀ f ∈ fs, f.size = sumOfLengths f.bytes :=
  c6_size_invariant [Except.ok c6WitnessPart] (MpState.mk [(strL "a", [c6WitnessFile])] [])
    (by decide)

/-- Claim C2 (amended): for a part whose content-disposition header parses,
the aggregator's loop body behaves as follows.  A part whose disposition
lacks a `name` parameter is skipped entirely (state unchanged, no error).  A
part with `name` but no `filename` appends exactly one DataInput, keyed by
the `name` value.  A part with both `name` and `filename` is the file case
and — provided its content-type header is present and valid and all its
chunks arrive — appends exactly one FileInput keyed by the `name` value; a
missing or invalid content-type header instead aborts with a
`NoContentType` error (see the counterexample). -/
theorem c2_part_classification (st : MpState) (p : MpPart) (s : Str)
    (hcd : p.cdHeader = some (some s)) :
    ((ContentDisposition.create s).has_name_field = false → stepPart st p = .ok st) ∧
    (∀ nv, (ContentDisposition.create s).has_name_field = true →
      (ContentDisposition.create s).is_file_field = false →
      mapLookup (ContentDisposition.create s).vars nameKey = some nv →
      stepPart st p = .ok
        { st with data_inputs := pushAt st.data_inputs nv
                    (DataInput.mk nv (collect_data_field_value p.chunks)) }) ∧
    (∀ nv fv ct t bs, (ContentDisposition.create s).has_name_field = true →
      (ContentDisposition.create s).is_file_field = true →
      mapLookup (ContentDisposition.create s).vars nameKey = some nv →
      mapLookup (ContentDisposition.create s).vars filenameKey = some fv →
      p.ctHeader = some (some ct) →
      collectFileChunks p.chunks = some (t, bs) →
      stepPart st p = .ok
        { st with file_inputs := pushAt st.file_inputs nv
                    (FileInput.mk fv nv t ct bs (getExtension fv)
                      (ContentDisposition.create s)) }) := by
  refine ⟨?_, ?_, ?_⟩
  · intro h1
    simp [stepPart, hcd, h1]
  · intro nv h1 h2 h3
    simp [stepPart, hcd, h1, h2, ContentDisposition.get_variable, h3]
  · intro nv fv ct t bs h1 h2 h3 h4 hct hcc
    simp [stepPart, hcd, h1, h2, FileInput.create, FileInput.get_content_type, hct, h3, h4, hcc]

/-- Claim C2, as stated, is false for a file part without a content-type
header: the part's disposition has both `name` and `filename`, yet no
FileInput is produced — processing aborts with a `NoContentType` error. -/
theorem c2_missing_content_type_cex :
    stepPart {} (MpPart.mk (some (some (strL "form-data; name=a; filename=b.txt"))) none []) =
      .err (.NoContentType (strL "Empty content type")) ∧
    (ContentDisposition.create (strL "form-data; name=a; filename=b.txt")).has_name_field
      = true ∧
    (ContentDisposition.create (strL "form-data; name=a; filename=b.txt")).is_file_field
      = true := by
  decide

def c2WitnessPart : MpPart :=
  { cdHeader := some (some (strL "form-data; name=a; filename=b.txt"))
    ctHeader := some (some (strL "text/plain"))
    chunks := [Except.ok (strL "xy")] }

/-- Witness for C2: the file clause applied to a well-formed file part. -/
theorem c2_part_classification_witness :
    stepPart {} c2WitnessPart = .ok
      { file_inputs := pushAt ([] : List (Str × List FileInput)) (strL "a")
                         (FileInput.mk (strL "b.txt") (strL "a") 2 (strL "text/plain")
                           [strL "xy"] (some (strL "txt"))
                           (ContentDisposition.create
                             (strL "form-data; name=a; filename=b.txt")))
        data_inputs := [] } :=
  (c2_part_classification {} c2WitnessPart (strL "form-data; name=a; filename=b.txt")
      rfl).2.2
    (strL "a") (strL "b.txt") (strL "text/plain") 2 [strL "xy"]
    (by decide) (by decide) (by decide) (by decide) rfl (by decide)

/-- A part that `process` routes to the file branch: its disposition header
parses and carries both `name` and `filename`. -/
def isFileFieldPart (p : MpPart) : Bool :=
  match p.cdHeader with
  | some (some s) =>
    (ContentDisposition.create s).has_name_field && (ContentDisposition.create s).is_file_field
  | _ => false

def hasValidContentType (p : MpPart) : Bool :=
  match p.ctHeader with
  | some (some _) => true
  | _ => false

def chunkIsOk : Except NtexErr Str → Bool
  | .ok _ => true
  | .error _ => false

/-- A part on which the file branch cannot panic or fail: if it is a file
part, its content-type header is usable and all its chunks arrive. -/
def wellFormedFilePart (p : MpPart) : Bool :=
  !(isFileFieldPart p) || (hasValidContentType p && p.chunks.all chunkIsOk)

def itemWF : Except NtexErr MpPart → Bool
  | .ok p => wellFormedFilePart p
  | .error _ => true

def itemIsOk : Except NtexErr MpPart → Bool
  | .ok _ => true
  | .error _ => false

theorem collectFileChunks_isSome (chunks : List (Except NtexErr Str))
    (h : chunks.all chunkIsOk = true) :
    ∃ tb, collectFileChunks chunks = some tb := by
  induction chunks with
  | nil => exact ⟨(0, []), rfl⟩
  | cons c rest ih =>
    rw [List.all_cons, Bool.and_eq_true] at h
    cases c with
    | error e => simp [chunkIsOk] at h
    | ok d =>
      obtain ⟨tb, htb⟩ := ih h.2
      exact ⟨(d.length + tb.1, d :: tb.2), by simp [collectFileChunks, htb]⟩

def StepOut.isOkB : StepOut → Bool
  | .ok _ => true
  | _ => false

theorem stepOut_isOkB_iff (x : StepOut) : x.isOkB = true ↔ ∃ st', x = .ok st' := by
  cases x <;> simp [StepOut.isOkB]

theorem stepPart_wf_ok (st : MpState) (p : MpPart) (h : wellFormedFilePart p = true) :
    ∃ st', stepPart st p = .ok st' := by
  rw [← stepOut_isOkB_iff]
  cases hcd : p.cdHeader with
  | none => simp [stepPart, hcd, StepOut.isOkB]
  | some o =>
    cases o with
    | none => simp [stepPart, hcd, StepOut.isOkB]
    | some s =>
      by_cases h1 : (ContentDisposition.create s).has_name_field = false
      · simp [stepPart, hcd, h1, StepOut.isOkB]
      · by_cases h2 : (ContentDisposition.create s).is_file_field = false
        · simp [stepPart, hcd, h1, h2, StepOut.isOkB]
        · have h1t : (ContentDisposition.create s).has_name_field = true := by
            revert h1; cases (ContentDisposition.create s).has_name_field <;> simp
          have h2t : (ContentDisposition.create s).is_file_field = true := by
            revert h2; cases (ContentDisposition.create s).is_file_field <;> simp
          have hfile : isFileFieldPart p = true := by
            simp [isFileFieldPart, hcd, h1t, h2t]
          unfold wellFormedFilePart at h
          rw [hfile] at h
          simp only [Bool.not_true, Bool.false_or, Bool.and_eq_true] at h
          obtain ⟨hct, hchunks⟩ := h
          obtain ⟨nv, hnv⟩ := lookup_of_contains _ _ ((create_has_name_eq s) ▸ h1t)
          obtain ⟨fv, hfv⟩ := lookup_of_contains _ _ ((create_is_file_eq s) ▸ h2t)
          obtain ⟨tb, htb⟩ := collectFileChunks_isSome p.chunks hchunks
          cases hcth : p.ctHeader with
          | none => rw [hasValidContentType, hcth] at hct; cases hct
          | some o2 =>
            cases o2 with
            | none => rw [hasValidContentType, hcth] at hct; cases hct
            | some ct =>
              simp [stepPart, hcd, h1, h2, FileInput.create,
                FileInput.get_content_type, hcth, hnv, hfv, htb, StepOut.isOkB]

theorem process_all_ok : ∀ (items : List (Except NtexErr MpPart)) (st : MpState),
    items.all itemWF = true → items.all itemIsOk = true →
    ∃ st', Multipart.process st items = .ok st' := by
  intro items
  induction items with
  | nil => intro st _ _; exact ⟨st, rfl⟩
  | cons it rest ih =>
    intro st hwf hok
    rw [List.all_cons, Bool.and_eq_true] at hwf hok
    cases it with
    | error e => simp [itemIsOk] at hok
    | ok p =>
      obtain ⟨st2, hst2⟩ := stepPart_wf_ok st p hwf.1
      obtain ⟨st', hst'⟩ := ih st2 hwf.2 hok.2
      exact ⟨st', by simp [Multipart.process, hst2, hst']⟩

theorem process_prefix_err :
    ∀ (pre : List (Except NtexErr MpPart)) (st : MpState) (e : NtexErr)
      (post : List (Except NtexErr MpPart)),
    pre.all itemWF = true → pre.all itemIsOk = true →
    ∃ st', Multipart.process st pre = .ok st' ∧
      Multipart.process st (pre ++ .error e :: post) = .err (.NtexError e) st' := by
  intro pre
  induction pre with
  | nil => intro st e post _ _; exact ⟨st, rfl, rfl⟩
  | cons it rest ih =>
    intro st e post hwf hok
    rw [List.all_cons, Bool.and_eq_true] at hwf hok
    cases it with
    | error e2 => simp [itemIsOk] at hok
    | ok p =>
      obtain ⟨st2, hst2⟩ := stepPart_wf_ok st p hwf.1
      obtain ⟨st', h1, h2⟩ := ih st2 e post hwf.2 hok.2
      exact ⟨st', by simp [Multipart.process, hst2, h1],
        by simp [Multipart.process, hst2, h2]⟩

/-- Claim C9 (amended): provided every file part of the stream has a valid
content-type header and all its chunks arrive (otherwise `process` fails
with `NoContentType`, respectively panics on `chunk.unwrap()` — see the
counterexample), `process` either fully drains an error-free stream and
returns Ok, or returns the first item-level stream error as a value; in the
error case the data and file maps are exactly those accumulated from the
items before the failing one. -/
theorem c9_process_dichotomy (items : List (Except NtexErr MpPart))
    (h : items.all itemWF = true) (st : MpState) :
    (items.all itemIsOk = true → ∃ st', Multipart.process st items = .ok st') ∧
    (∀ pre e post, items = pre ++ .error e :: post → pre.all itemIsOk = true →
      ∃ st', Multipart.process st pre = .ok st' ∧
        Multipart.process st items = .err (.NtexError e) st') := by
  constructor
  · exact fun hok => process_all_ok items st h hok
  · intro pre e post heq hok
    subst heq
    rw [List.all_append, Bool.and_eq_true] at h
    exact process_prefix_err pre st e post h.1 hok

/-- Claim C9, as stated, is false: a file part one of whose chunks is a
stream error makes `process` panic on `chunk.unwrap()` — it neither drains
the stream nor returns an error value. -/
theorem c9_chunk_error_panic_cex :
    Multipart.process {}
      [Except.ok (MpPart.mk (some (some (strL "form-data; name=a; filename=b.txt")))
        (some (some (strL "text/plain"))) [Except.error (NtexErr.mk 0)])] =
      .panicked .chunkUnwrap := by
  decide

def c9WitnessPart : MpPart :=
  MpPart.mk (some (some (strL "form-data; name=a"))) none [Except.ok (strL "v")]

/-- Witness for C9: one data part followed by a stream error. -/
theorem c9_process_dichotomy_witness :
    ∃ st', Multipart.process {} [Except.ok c9WitnessPart] = .ok st' ∧
      Multipart.process {} [Except.ok c9WitnessPart, Except.error (NtexErr.mk 7)] =
        .err (.NtexError (NtexErr.mk 7)) st' :=
  (c9_process_dichotomy [Except.ok c9WitnessPart, Except.error (NtexErr.mk 7)]
      (by decide) {}).2
    [Except.ok c9WitnessPart] (NtexErr.mk 7) [] rfl (by decide)

/-- The parse-failure message built by both the `Option<T>` impl and the
`impl_post_parseable_from_str` macro. -/
def parseFailMsg (field value tyName errMsg : Str) : Str :=
  strL "Failed to parse field '" ++ field ++ strL "' with value '" ++ value ++
    strL "' as " ++ tyName ++ strL ": " ++ errMsg

/-- The empty-field message of the macro path. -/
def emptyFieldMsg (field tyName : Str) : Str :=
  strL "Field '" ++ field ++ strL "' is empty and cannot be parsed as " ++ tyName

/-- `impl PostParseable for Option<T>` (contract.rs lines 69-100); `parseT`
stands for `T::from_str`, its error already displayed. -/
def postOption (tyName : Str) (parseT : Str → Except Str α) (m : MpState) (field : Str) :
    Except MultipartError (Option α) :=
  match Multipart.first_data m field with
  | some data_input =>
    let value := trimStr data_input.value
    if value = [] then .ok none
    else
      match parseT value with
      | .ok v => .ok (some v)
      | .error e => .error (.ParseError (parseFailMsg field value tyName e))
  | none => .ok none

/-- `parse_from_multipart_str` generated by `impl_post_parseable_from_str`
(macros.rs lines 10-33): the required-`T` path. -/
def parse_from_multipart_str (tyName : Str) (parseT : Str → Except Str α)
    (m : MpState) (field : Str) : Except MultipartError α :=
  match Multipart.first_data_required m field with
  | .error e => .error e
  | .ok data_input =>
    let value := trimStr data_input.value
    if value = [] then .error (.ParseError (emptyFieldMsg field tyName))
    else
      match parseT value with
      | .ok v => .ok v
      | .error e => .error (.ParseError (parseFailMsg field value tyName e))

/-- `Multipart::post_or` (multipart.rs lines 138-143):
`self.post(field).unwrap_or(default)`, where `post` is the type's
`parse_from_multipart`, passed here as `p`. -/
def Multipart.post_or (p : MpState → Str → Except MultipartError α)
    (m : MpState) (field : Str) (dflt : α) : α :=
  match p m field with
  | .ok v => v
  | .error _ => dflt

/-- `Multipart::post_opt` (multipart.rs lines 147-152): `self.post(field).ok()`. -/
def Multipart.post_opt (p : MpState → Str → Except MultipartError α)
    (m : MpState) (field : Str) : Option α :=
  match p m field with
  | .ok v => some v
  | .error _ => none

/-- Claim C3: coercion to `Option<T>`: an absent field gives `Ok(None)`; a
first value that is empty or whitespace-only after trimming gives
`Ok(None)`; a non-empty trimmed value that fails `T`'s parse gives a
`ParseError` (not `None`); a value that parses gives `Ok(Some v))`. -/
theorem c3_option_coercion (tyName : Str) (parseT : Str → Except Str α)
    (m : MpState) (field : Str) :
    (Multipart.first_data m field = none → postOption tyName parseT m field = .ok none) ∧
    (∀ di, Multipart.first_data m field = some di → trimStr di.value = [] →
      postOption tyName parseT m field = .ok none) ∧
    (∀ di e, Multipart.first_data m field = some di → trimStr di.value ≠ [] →
      parseT (trimStr di.value) = .error e →
      postOption tyName parseT m field =
        .error (.ParseError (parseFailMsg field (trimStr di.value) tyName e))) ∧
    (∀ di v, Multipart.first_data m field = some di → trimStr di.value ≠ [] →
      parseT (trimStr di.value) = .ok v →
      postOption tyName parseT m field = .ok (some v)) := by
  refine ⟨?_, ?_, ?_, ?_⟩
  · intro h
    simp [postOption, h]
  · intro di h he
    simp [postOption, h, he]
  · intro di e h hne hp
    simp [postOption, h, hne, hp]
  · intro di v h hne hp
    simp [postOption, h, hne, hp]

def c3WitnessState : MpState :=
  MpState.mk []
    [(strL "good", [DataInput.mk (strL "good") (strL " 1 ")]),
     (strL "ws", [DataInput.mk (strL "ws") (strL "   ")]),
     (strL "bad", [DataInput.mk (strL "bad") (strL "x")])]

def c3Parser : Str → Except Str Nat :=
  fun s => if s = strL "1" then Except.ok 1 else Except.error (strL "bad digit")

/-- Witness for C3: all four cases at concrete fields. -/
theorem c3_option_coercion_witness :
    postOption (strL "Nat") c3Parser c3WitnessState (strL "missing") = .ok none ∧
    postOption (strL "Nat") c3Parser c3WitnessState (strL "ws") = .ok none ∧
    postOption (strL "Nat") c3Parser c3WitnessState (strL "bad") =
      .error (.ParseError
        (parseFailMsg (strL "bad") (strL "x") (strL "Nat") (strL "bad digit"))) ∧
    postOption (strL "Nat") c3Parser c3WitnessState (strL "good") = .ok (some 1) :=
  ⟨(c3_option_coercion (strL "Nat") c3Parser c3WitnessState (strL "missing")).1 (by decide),
   (c3_option_coercion (strL "Nat") c3Parser c3WitnessState (strL "ws")).2.1
     (DataInput.mk (strL "ws") (strL "   ")) (by decide) (by decide),
   (c3_option_coercion (strL "Nat") c3Parser c3WitnessState (strL "bad")).2.2.1
     (DataInput.mk (strL "bad") (strL "x")) (strL "bad digit")
     (by decide) (by decide) (by decide),
   (c3_option_coercion (strL "Nat") c3Parser c3WitnessState (strL "good")).2.2.2
     (DataInput.mk (strL "good") (strL " 1 ")) 1 (by decide) (by decide) (by decide)⟩

/-- Claim C7: `post_or(field, d)` returns the parsed value when `post`
succeeds and `d` on any failure (including a missing field); `post_opt`
returns `Some v` exactly when `post` succeeds with `v` and `None` on any
failure.  For the required-`T` path this swallows parse errors on a present
non-empty value into `None`, whereas coercion through `Option<T>`
(`postOption`) reports the same parse failure as an error. -/
theorem c7_post_wrappers (p : MpState → Str → Except MultipartError α)
    (m : MpState) (field : Str) (dflt : α) :
    (∀ v, p m field = .ok v →
      Multipart.post_or p m field dflt = v ∧ Multipart.post_opt p m field = some v) ∧
    (∀ e, p m field = .error e →
      Multipart.post_or p m field dflt = dflt ∧ Multipart.post_opt p m field = none) ∧
    (∀ (β : Type) (tyName : Str) (parseT : Str → Except Str β) (di : DataInput) (e : Str),
      Multipart.first_data m field = some di → trimStr di.value ≠ [] →
      parseT (trimStr di.value) = .error e →
      Multipart.post_opt (parse_from_multipart_str tyName parseT) m field = none ∧
      postOption tyName parseT m field =
        .error (.ParseError (parseFailMsg field (trimStr di.value) tyName e))) := by
  refine ⟨?_, ?_, ?_⟩
  · intro v hv
    exact ⟨by simp [Multipart.post_or, hv], by simp [Multipart.post_opt, hv]⟩
  · intro e he
    exact ⟨by simp [Multipart.post_or, he], by simp [Multipart.post_opt, he]⟩
  · intro β tyName parseT di e h1 h2 h3
    constructor
    · simp [Multipart.post_opt, parse_from_multipart_str,
        Multipart.first_data_required, h1, h2, h3]
    · simp [postOption, h1, h2, h3]

def c7WitnessState : MpState :=
  MpState.mk []
    [(strL "good", [DataInput.mk (strL "good") (strL "1")]),
     (strL "bad", [DataInput.mk (strL "bad") (strL "x")])]

def c7Parser : Str → Except Str Nat :=
  fun s => if s = strL "1" then Except.ok 1 else Except.error (strL "no")

/-- Witness for C7: default on a missing field, `Some` on success, `None` on
a swallowed parse error, and the `Option<T>` path erroring on the same
input. -/
theorem c7_post_wrappers_witness :
    Multipart.post_or (parse_from_multipart_str (strL "Nat") c7Parser)
      c7WitnessState (strL "missing") 5 = 5 ∧
    Multipart.post_opt (parse_from_multipart_str (strL "Nat") c7Parser)
      c7WitnessState (strL "good") = some 1 ∧
    Multipart.post_opt (parse_from_multipart_str (strL "Nat") c7Parser)
      c7WitnessState (strL "bad") = none ∧
    postOption (strL "Nat") c7Parser c7WitnessState (strL "bad") =
      .error (.ParseError (parseFailMsg (strL "bad") (strL "x") (strL "Nat") (strL "no"))) :=
  ⟨((c7_post_wrappers (parse_from_multipart_str (strL "Nat") c7Parser)
        c7WitnessState (strL "missing") 5).2.1
      (.MissingDataField (strL "missing")) (by decide)).1,
   ((c7_post_wrappers (parse_from_multipart_str (strL "Nat") c7Parser)
        c7WitnessState (strL "good") 5).1 1 (by decide)).2,
   ((c7_post_wrappers (parse_from_multipart_str (strL "Nat") c7Parser)
        c7WitnessState (strL "bad") 5).2.2 Nat (strL "Nat") c7Parser
      (DataInput.mk (strL "bad") (strL "x")) (strL "no")
      (by decide) (by decide) (by decide)).1,
   ((c7_post_wrappers (parse_from_multipart_str (strL "Nat") c7Parser)
        c7WitnessState (strL "bad") 5).2.2 Nat (strL "Nat") c7Parser
      (DataInput.mk (strL "bad") (strL "x")) (strL "no")
      (by decide) (by decide) (by decide)).2⟩

/-- `FileRules` (file_validator.rs lines 29-54); `Default` gives false /
`None` everywhere. -/
structure FileRules where
  required : Bool := false
  extension_required : Bool := false
  min_size : Option Nat := none
  max_size : Option Nat := none
  allowed_extensions : Option (List Str) := none
  allowed_content_types : Option (List Str) := none
  min_files : Option Nat := none
  max_files : Option Nat := none
deriving DecidableEq

/-- Rust `str::to_lowercase` (ASCII model, see header). -/
def lowerStr (s : Str) : Str := s.map Char.toLower

/-- `usize::MAX` on a 64-bit target, used by `max_files.unwrap_or`. -/
def USIZE_MAX : Nat := 2 ^ 64 - 1

def joinQuoted : List Str → Str
  | [] => []
  | [s] => '"' :: (s ++ ['"'])
  | s :: rest => '"' :: (s ++ ['"']) ++ strL ", " ++ joinQuoted rest

/-- The `format!` message of the content-type check, with Rust's
`Vec<String>` debug formatting. -/
def invalidCtMsg (allowed : List Str) : Str :=
  strL "Invalid content type. Allowed content types are: [" ++ joinQuoted allowed ++ strL "]"

/-- `validate_file` lines 128-133: extension required but missing. -/
def chkExtensionRequired (rule : FileRules) (file : FileInput) : Option InputError :=
  if rule.extension_required && file.extension.isNone then
    some (InputError.mk file.field_name (.MissingFileExtension file.file_name))
  else none

/-- `validate_file` lines 136-143: size below `min_size`. -/
def chkMinSize (rule : FileRules) (file : FileInput) : Option InputError :=
  match rule.min_size with
  | some m =>
    if file.size < m then some (InputError.mk file.field_name (.FileTooSmall m)) else none
  | none => none

/-- `validate_file` lines 145-152: size above `max_size`. -/
def chkMaxSize (rule : FileRules) (file : FileInput) : Option InputError :=
  match rule.max_size with
  | some m =>
    if file.size > m then some (InputError.mk file.field_name (.FileTooLarge m)) else none
  | none => none

/-- `validate_file` lines 155-169: the allow-list check lowercases the
FILE's extension only and tests exact membership in the list; a file with
no extension fails with `MissingFileExtension`. -/
def chkAllowedExtensions (rule : FileRules) (file : FileInput) : Option InputError :=
  match rule.allowed_extensions with
  | some allowed =>
    match file.extension with
    | some ext =>
      if lowerStr ext ∈ allowed then none
      else some (InputError.mk file.field_name (.InvalidFileExtension (some ext)))
    | none => some (InputError.mk file.field_name (.MissingFileExtension file.file_name))
  | none => none

/-- `validate_file` lines 172-181: lowercases the FILE's content type only. -/
def chkAllowedContentTypes (rule : FileRules) (file : FileInput) : Option InputError :=
  match rule.allowed_content_types with
  | some allowed =>
    if lowerStr file.content_type ∈ allowed then none
    else some (InputError.mk file.field_name (.InvalidContentType (invalidCtMsg allowed)))
  | none => none

/-- `Validator::validate_file` (file_validator.rs lines 126-184): the checks
in source order, first failure returned. -/
def Validator.validate_file (rule : FileRules) (file : FileInput) : Except InputError Unit :=
  match chkExtensionRequired rule file with
  | some e => .error e
  | none =>
    match chkMinSize rule file with
    | some e => .error e
    | none =>
      match chkMaxSize rule file with
      | some e => .error e
      | none =>
        match chkAllowedExtensions rule file with
        | some e => .error e
        | none =>
          match chkAllowedContentTypes rule file with
          | some e => .error e
          | none => .ok ()

/-- The per-file loop of `validate_files` (lines 118-120), in list order. -/
def validateEach (rules : FileRules) : List FileInput → Except InputError Unit
  | [] => .ok ()
  | f :: fs =>
    match Validator.validate_file rules f with
    | .error e => .error e
    | .ok _ => validateEach rules fs

/-- `Validator::validate_files` (file_validator.rs lines 77-124). -/
def Validator.validate_files (field_name : Str) (files? : Option (List FileInput))
    (rules : FileRules) : Except InputError Unit :=
  match files? with
  | none =>
    if rules.required then .error (InputError.mk field_name .NoFiles) else .ok ()
  | some files =>
    if rules.required && files.length == 0 then .error (InputError.mk field_name .NoFiles)
    else if files.length < rules.min_files.getD 0 then
      .error (InputError.mk field_name (.TooFewFiles files.length))
    else if files.length > rules.max_files.getD USIZE_MAX then
      .error (InputError.mk field_name (.TooManyFiles files.length))
    else validateEach rules files

def firstSome : List (Option InputError) → Option InputError
  | [] => none
  | o :: rest =>
    match o with
    | some e => some e
    | none => firstSome rest

/-- Claim C4's per-file check list, in the claim's order (with the two
corrections recorded in the amendment: a present file with no extension
fails the allow-list check with `MissingFileExtension`). -/
def specFileChecks (rules : FileRules) (file : FileInput) : List (Option InputError) :=
  [chkExtensionRequired rules file, chkMinSize rules file, chkMaxSize rules file,
   chkAllowedExtensions rules file, chkAllowedContentTypes rules file]

def concatChecks (rules : FileRules) : List FileInput → List (Option InputError)
  | [] => []
  | f :: fs => specFileChecks rules f ++ concatChecks rules fs

def specRequiredEmptyCheck (field_name : Str) (files : List FileInput)
    (rules : FileRules) : Option InputError :=
  if rules.required = true ∧ files = [] then some (InputError.mk field_name .NoFiles)
  else none

def specMinFilesCheck (field_name : Str) (len : Nat) (rules : FileRules) : Option InputError :=
  match rules.min_files with
  | some mn => if len < mn then some (InputError.mk field_name (.TooFewFiles len)) else none
  | none => none

def specMaxFilesCheck (field_name : Str) (len : Nat) (rules : FileRules) : Option InputError :=
  match rules.max_files with
  | some mx => if len > mx then some (InputError.mk field_name (.TooManyFiles len)) else none
  | none => none

/-- Claim C4 read as an ordered list of checks, first failure wins
(amended: a present-but-empty list with `required` also fails with
`NoFiles`, before the count bounds). -/
def specFieldFailure (field_name : Str) (files? : Option (List FileInput))
    (rules : FileRules) : Option InputError :=
  match files? with
  | none => if rules.required then some (InputError.mk field_name .NoFiles) else none
  | some files =>
    firstSome
      ([specRequiredEmptyCheck field_name files rules,
        specMinFilesCheck field_name files.length rules,
        specMaxFilesCheck field_name files.length rules] ++ concatChecks rules files)

theorem validate_file_eq_checks (rules : FileRules) (file : FileInput) :
    Validator.validate_file rules file =
      match firstSome (specFileChecks rules file) with
      | some e => .error e
      | none => .ok () := by
  unfold Validator.validate_file specFileChecks firstSome
  cases chkExtensionRequired rules file <;>
    cases chkMinSize rules file <;>
      cases chkMaxSize rules file <;>
        cases chkAllowedExtensions rules file <;>
          cases chkAllowedContentTypes rules file <;> rfl

theorem firstSome_append (a b : List (Option InputError)) :
    firstSome (a ++ b) =
      match firstSome a with
      | some e => some e
      | none => firstSome b := by
  induction a with
  | nil => rfl
  | cons o rest ih =>
    cases o with
    | some e => rfl
    | none => simp [firstSome, ih]

theorem validateEach_eq (rules : FileRules) (files : List FileInput) :
    validateEach rules files =
      match firstSome (concatChecks rules files) with
      | some e => .error e
      | none => .ok () := by
  induction files with
  | nil => rfl
  | cons f fs ih =>
    rw [show concatChecks rules (f :: fs) = specFileChecks rules f ++ concatChecks rules fs
        from rfl,
      firstSome_append]
    rw [show validateEach rules (f :: fs) =
        (match Validator.validate_file rules f with
         | .error e => .error e
         | .ok _ => validateEach rules fs) from rfl]
    rw [validate_file_eq_checks]
    cases firstSome (specFileChecks rules f) with
    | some e => rfl
    | none => simpa using ih

theorem specMinFilesCheck_none (fn : Str) (len : Nat) (rules : FileRules)
    (h : ¬ len < rules.min_files.getD 0) : specMinFilesCheck fn len rules = none := by
  unfold specMinFilesCheck
  cases hmn : rules.min_files with
  | none => rfl
  | some mn => rw [hmn] at h; simp at h; simp [Nat.not_lt.mpr h]

theorem specMinFilesCheck_some (fn : Str) (len : Nat) (rules : FileRules)
    (h : len < rules.min_files.getD 0) :
    specMinFilesCheck fn len rules = some (InputError.mk fn (.TooFewFiles len)) := by
  unfold specMinFilesCheck
  cases hmn : rules.min_files with
  | none => rw [hmn] at h; exact absurd h (Nat.not_lt_zero _)
  | some mn => rw [hmn] at h; simp at h; simp [h]

theorem specMaxFilesCheck_none (fn : Str) (len : Nat) (rules : FileRules)
    (h : ¬ len > rules.max_files.getD USIZE_MAX) :
    specMaxFilesCheck fn len rules = none := by
  unfold specMaxFilesCheck
  cases hmx : rules.max_files with
  | none => rfl
  | some mx => rw [hmx] at h; simp at h; simp [Nat.not_lt.mpr h]

theorem specMaxFilesCheck_some (fn : Str) (len : Nat) (rules : FileRules)
    (hl : len ≤ USIZE_MAX) (h : len > rules.max_files.getD USIZE_MAX) :
    specMaxFilesCheck fn len rules = some (InputError.mk fn (.TooManyFiles len)) := by
  unfold specMaxFilesCheck
  cases hmx : rules.max_files with
  | none => rw [hmx] at h; exact absurd h (Nat.not_lt.mpr hl)
  | some mx => rw [hmx] at h; simp at h; simp [h]

/-- Claim C4 (amended): per-field validation checks, in order, first failure
wins: field absent → `NoFiles` if required (otherwise the field passes with
no further checks); a PRESENT but empty file list with `required` also gives
`NoFiles` (this check precedes the count bounds — the claim as stated missed
it, see the counterexample); count below `min_files` → `TooFewFiles(count)`;
count above `max_files` → `TooManyFiles(count)`; then per file in list
order: extension missing while `extension_required` → `MissingFileExtension`;
size below `min_size` → `FileTooSmall(bound)`; size above `max_size` →
`FileTooLarge(bound)`; extension not in `allowed_extensions` →
`InvalidFileExtension` (a file with NO extension fails this check with
`MissingFileExtension`); content type not in `allowed_content_types` →
`InvalidContentType`; if no check fails the field validates Ok.  Stated as
equality with the ordered check list `specFieldFailure`. -/
theorem c4_validation_order (field_name : Str) (files? : Option (List FileInput))
    (rules : FileRules)
    (hlen : ∀ files, files? = some files → files.length ≤ USIZE_MAX) :
    Validator.validate_files field_name files? rules =
      match specFieldFailure field_name files? rules with
      | some e => .error e
      | none => .ok () := by
  cases files? with
  | none =>
    unfold Validator.validate_files specFieldFailure
    cases hr : rules.required <;> simp [hr]
  | some files =>
    have hl : files.length ≤ USIZE_MAX := hlen files rfl
    unfold Validator.validate_files specFieldFailure
    dsimp only
    by_cases h1 : (rules.required && files.length == 0) = true
    · have h1' : rules.required = true ∧ files = [] := by
        rw [Bool.and_eq_true, beq_iff_eq] at h1
        exact ⟨h1.1, List.length_eq_zero.mp h1.2⟩
      simp [h1, specRequiredEmptyCheck, h1', firstSome]
    · have h1'' : ¬(rules.required = true ∧ files = []) := by
        intro hc
        exact h1 (by rw [Bool.and_eq_true, beq_iff_eq]; exact ⟨hc.1, by rw [hc.2]; rfl⟩)
      rw [Bool.not_eq_true] at h1
      by_cases h2 : files.length < rules.min_files.getD 0
      · rw [specMinFilesCheck_some field_name files.length rules h2]
        simp [h1, h2, specRequiredEmptyCheck, h1'', firstSome]
      · rw [specMinFilesCheck_none field_name files.length rules h2]
        by_cases h3 : files.length > rules.max_files.getD USIZE_MAX
        · rw [specMaxFilesCheck_some field_name files.length rules hl h3]
          simp [h1, h2, h3, specRequiredEmptyCheck, h1'', firstSome]
        · rw [specMaxFilesCheck_none field_name files.length rules h3]
          simp [h1, h2, h3, specRequiredEmptyCheck, h1'', firstSome, validateEach_eq]

/-- Claim C4, as stated, is false: with `required` set and a PRESENT but
empty file list, none of the claim's listed checks fires (the field is not
absent, and `min_files`/`max_files` are unset, and there is no file to
check), so the claim predicts Ok — but the code returns `NoFiles`. -/
theorem c4_required_empty_list_cex :
    Validator.validate_files (strL "file_field") (some [])
      ({ required := true } : FileRules) =
      .error (InputError.mk (strL "file_field") ErrorMessage.NoFiles) ∧
    some ([] : List FileInput) ≠ none ∧
    ({ required := true } : FileRules).min_files = none ∧
    ({ required := true } : FileRules).max_files = none := by
  decide

def c4WitnessFile : FileInput := { size := 5 }

def c4WitnessRules : FileRules := { min_size := some 10 }

/-- Witness for C4 at a concrete undersized file. -/
theorem c4_validation_order_witness :
    Validator.validate_files (strL "f") (some [c4WitnessFile]) c4WitnessRules =
      match specFieldFailure (strL "f") (some [c4WitnessFile]) c4WitnessRules with
      | some e => .error e
      | none => .ok () :=
  c4_validation_order (strL "f") (some [c4WitnessFile]) c4WitnessRules
    (by intro files h; injection h with h2; subst h2; decide)

theorem mem_lower_iff (l : List Str) (x : Str) (hl : ∀ e ∈ l, lowerStr e = e) :
    lowerStr x ∈ l ↔ ∃ e ∈ l, lowerStr x = lowerStr e := by
  constructor
  · intro hmem
    exact ⟨lowerStr x, hmem, (hl _ hmem).symm⟩
  · rintro ⟨e, he, heq⟩
    rw [heq, hl e he]
    exact he

theorem validate_file_ext_only (exts : List Str) (f : FileInput) (x : Str)
    (hx : f.extension = some x) :
    Validator.validate_file ({ allowed_extensions := some exts } : FileRules) f =
      if lowerStr x ∈ exts then .ok ()
      else .error (InputError.mk f.field_name (.InvalidFileExtension (some x))) := by
  unfold Validator.validate_file chkExtensionRequired chkMinSize chkMaxSize
    chkAllowedExtensions chkAllowedContentTypes
  by_cases hmem : lowerStr x ∈ exts <;> simp [hx, hmem]

theorem validate_file_ct_only (cts : List Str) (f : FileInput) :
    Validator.validate_file ({ allowed_content_types := some cts } : FileRules) f =
      if lowerStr f.content_type ∈ cts then .ok ()
      else .error (InputError.mk f.field_name (.InvalidContentType (invalidCtMsg cts))) := by
  unfold Validator.validate_file chkExtensionRequired chkMinSize chkMaxSize
    chkAllowedExtensions chkAllowedContentTypes
  by_cases hmem : lowerStr f.content_type ∈ cts <;> simp [hmem]

/-- Claim C5 (amended): the allow-list checks lowercase only the FILE's
extension (resp. content type) and test exact membership in the allow list;
hence they are case-insensitive in the file's value exactly when the
allow-list entries are lowercase.  With lowercase entries, a file passes iff
its value equals some entry up to letter case, and otherwise fails with
`InvalidFileExtension` (resp. `InvalidContentType`).  With a non-lowercase
entry the claimed behaviour fails (see the counterexample). -/
theorem c5_case_insensitive_membership :
    (∀ (exts : List Str) (f : FileInput) (x : Str),
      (∀ e ∈ exts, lowerStr e = e) → f.extension = some x →
      ((Validator.validate_file ({ allowed_extensions := some exts } : FileRules) f =
          .ok () ↔ ∃ e ∈ exts, lowerStr x = lowerStr e) ∧
        (¬(∃ e ∈ exts, lowerStr x = lowerStr e) →
          Validator.validate_file ({ allowed_extensions := some exts } : FileRules) f =
            .error (InputError.mk f.field_name (.InvalidFileExtension (some x)))))) ∧
    (∀ (cts : List Str) (f : FileInput),
      (∀ c ∈ cts, lowerStr c = c) →
      ((Validator.validate_file ({ allowed_content_types := some cts } : FileRules) f =
          .ok () ↔ ∃ c ∈ cts, lowerStr f.content_type = lowerStr c) ∧
        (¬(∃ c ∈ cts, lowerStr f.content_type = lowerStr c) →
          Validator.validate_file ({ allowed_content_types := some cts } : FileRules) f =
            .error (InputError.mk f.field_name (.InvalidContentType (invalidCtMsg cts)))))) := by
  constructor
  · intro exts f x hlow hx
    constructor
    · by_cases hmem : lowerStr x ∈ exts
      · exact iff_of_true (by rw [validate_file_ext_only exts f x hx]; simp [hmem])
          ((mem_lower_iff exts x hlow).mp hmem)
      · refine iff_of_false ?_ ?_
        · rw [validate_file_ext_only exts f x hx]
          simp [hmem]
        · exact fun hex => hmem ((mem_lower_iff exts x hlow).mpr hex)
    · intro hnot
      have hmem : ¬ lowerStr x ∈ exts := fun hm => hnot ((mem_lower_iff exts x hlow).mp hm)
      rw [validate_file_ext_only exts f x hx]
      simp [hmem]
  · intro cts f hlow
    constructor
    · by_cases hmem : lowerStr f.content_type ∈ cts
      · exact iff_of_true (by rw [validate_file_ct_only cts f]; simp [hmem])
          ((mem_lower_iff cts f.content_type hlow).mp hmem)
      · refine iff_of_false ?_ ?_
        · rw [validate_file_ct_only cts f]
          simp [hmem]
        · exact fun hex => hmem ((mem_lower_iff cts f.content_type hlow).mpr hex)
    · intro hnot
      have hmem : ¬ lowerStr f.content_type ∈ cts :=
        fun hm => hnot ((mem_lower_iff cts f.content_type hlow).mp hm)
      rw [validate_file_ct_only cts f]
      simp [hmem]

/-- Claim C5, as stated, is false: with the allow list `["JPG"]` a file
whose extension is literally `"JPG"` (equal to the entry, in particular
equal up to case) is REJECTED, because the code lowercases only the file's
value and `"jpg"` is not a member of `["JPG"]`. -/
theorem c5_uppercase_allowlist_cex :
    Validator.validate_file
      ({ allowed_extensions := some [strL "JPG"] } : FileRules)
      ({ extension := some (strL "JPG"), field_name := strL "f" } : FileInput) =
      .error (InputError.mk (strL "f") (.InvalidFileExtension (some (strL "JPG")))) ∧
    strL "JPG" ∈ [strL "JPG"] := by
  decide

/-- Witness for C5: with a lowercase allow list, the uppercase file value
`"JPG"` is accepted. -/
theorem c5_case_insensitive_membership_witness :
    Validator.validate_file
      ({ allowed_extensions := some [strL "jpg"] } : FileRules)
      ({ extension := some (strL "JPG"), field_name := strL "f" } : FileInput) = .ok () :=
  ((c5_case_insensitive_membership.1 [strL "jpg"]
      ({ extension := some (strL "JPG"), field_name := strL "f" } : FileInput)
      (strL "JPG") (by decide) rfl).1).mpr ⟨strL "jpg", by decide, by decide⟩

/-- `HttpError` (foxtive-ntex error.rs lines 14-32), with both feature-gated
variants present.  The payloads of `AppError` / `AppMessage` live in the
external foxtive crate; they are abstract type parameters here, and their
delegated status mappings (`make_status_code`, `AppMessage::status_code`)
are abstract functions. -/
inductive HttpError (α β : Type) where
  | Std
  | AppError (e : β)
  | AppMessage (m : α)
  | PayloadError
  | Utf8Error
  | ValidationError
  | MultipartError (e : MultipartError)

/-- `WebResponseError::status_code` for `HttpError` (error.rs lines 56-76).
The final source arm `_ => INTERNAL_SERVER_ERROR` covers exactly `Std` and
`Utf8Error`, written out here. -/
def HttpError.status_code (msgStatus : α → Nat) (appErrStatus : β → Nat) :
    HttpError α β → Nat
  | .AppMessage m => msgStatus m
  | .AppError e => appErrStatus e
  | .ValidationError => 400
  | .PayloadError => 400
  | .MultipartError e =>
    match e with
    | .ValidationError ie =>
      match ie.error with
      | .InvalidFileExtension _ => 415
      | .InvalidContentType _ => 415
      | _ => 400
    | _ => 400
  | .Std => 500
  | .Utf8Error => 500

/-- Modelled from the spec: `ResponseCode` and `Responder` live in
`crate::enums` / `crate::helpers::responder`, modules of this repository
that are not under src/ (only their callers and tests are).  The spec's
§4.5 status wording and the repository's own error.rs test (a multipart
`InvalidFileExtension` response carries status 400) fix
`BadRequest ↦ 400`. -/
inductive ResponseCode where
  | Okay
  | BadRequest
deriving DecidableEq

def ResponseCode.status : ResponseCode → Nat
  | .Okay => 200
  | .BadRequest => 400

/-- The status of the response built by `make_http_error_response` (error.rs
lines 92-119), which `error_response` uses: `AppMessage`/`AppError` delegate
to the foxtive crate; validator, payload and ALL multipart errors go through
`Responder::send_msg(..., ResponseCode::BadRequest, ...)`; the rest becomes
an internal-server-error response. -/
def make_http_error_response_status (msgStatus : α → Nat) (appErrStatus : β → Nat) :
    HttpError α β → Nat
  | .AppMessage m => msgStatus m
  | .AppError e => appErrStatus e
  | .ValidationError => ResponseCode.BadRequest.status
  | .PayloadError => ResponseCode.BadRequest.status
  | .MultipartError _ => ResponseCode.BadRequest.status
  | .Std => 500
  | .Utf8Error => 500

/-- The multipart errors claim C8 singles out for 415. -/
def multipartStatusIs415 : MultipartError → Bool
  | .ValidationError ie =>
    match ie.error with
    | .InvalidFileExtension _ => true
    | .InvalidContentType _ => true
    | _ => false
  | _ => false

/-- Claim C8 (amended): `status_code` is total and maps a multipart
`ValidationError` carrying `InvalidFileExtension` or `InvalidContentType` to
415, every other multipart error (including every `ParseError`) to 400,
payload and validator errors to 400, and the unrecognized `Std`/`Utf8Error`
failures to 500.  HOWEVER the error response actually rendered
(`make_http_error_response`, used by `error_response`) sends status 400 for
EVERY multipart error — the 415 of `status_code` never reaches a multipart
response (see the counterexample, which mirrors the repository's own
`test_multipart_error`). -/
theorem c8_status_mapping (msgStatus : α → Nat) (appErrStatus : β → Nat) :
    (∀ h : HttpError α β, ∃ c, HttpError.status_code msgStatus appErrStatus h = c) ∧
    (∀ e : MultipartError,
      HttpError.status_code msgStatus appErrStatus (.MultipartError e) =
        if multipartStatusIs415 e then 415 else 400) ∧
    HttpError.status_code msgStatus appErrStatus .Std = 500 ∧
    HttpError.status_code msgStatus appErrStatus .Utf8Error = 500 ∧
    HttpError.status_code msgStatus appErrStatus .PayloadError = 400 ∧
    HttpError.status_code msgStatus appErrStatus .ValidationError = 400 ∧
    (∀ e : MultipartError,
      make_http_error_response_status msgStatus appErrStatus (.MultipartError e) = 400) := by
  refine ⟨fun h => ⟨HttpError.status_code msgStatus appErrStatus h, rfl⟩,
    ?_, rfl, rfl, rfl, rfl, fun e => rfl⟩
  intro e
  cases e with
  | ValidationError ie =>
    obtain ⟨nm, err⟩ := ie
    cases err <;> rfl
  | NoFile => rfl
  | IoError code => rfl
  | NoContentType msg => rfl
  | ParseError msg => rfl
  | MissingDataField field => rfl
  | InvalidContentDisposition msg => rfl
  | NtexError e2 => rfl

/-- Claim C8, as stated, is false for the rendered response: the multipart
error of the repository's own `test_multipart_error` — a `ValidationError`
with `InvalidFileExtension(Some("mp4"))` — yields a response with status
400, not 415, although `status_code` returns 415 for it. -/
theorem c8_response_status_cex :
    make_http_error_response_status (fun _ : Unit => 500) (fun _ : Unit => 500)
      (.MultipartError (.ValidationError (InputError.mk (strL "image")
        (.InvalidFileExtension (some (strL "mp4")))))) = 400 ∧
    HttpError.status_code (fun _ : Unit => 500) (fun _ : Unit => 500)
      (.MultipartError (.ValidationError (InputError.mk (strL "image")
        (.InvalidFileExtension (some (strL "mp4")))))) = 415 ∧
    (400 : Nat) ≠ 415 := by
  refine ⟨rfl, rfl, by decide⟩
